import Mathlib

/-!
Verification of the chat session synchronization engine
(`src/client/src/hooks/use-persistent-chats.ts`, canonical first version).

Embedding conventions:
* Timestamps are modelled as `Nat` milliseconds, the value produced by the
  source helper `toMs` (`new Date(v).getTime()` with non-finite collapsed
  to `0`).  Hence `0` encodes "absent or unparseable", exactly as the source
  treats falsy `toMs` results.
* JavaScript `Map` objects are modelled as association lists with
  `mapGet` / `mapSet` / `mapDel` providing the `get` / `set` / `delete`
  semantics (`set` replaces any previous binding of the key).
* `setTimeout` handles are modelled explicitly: `liveTimeouts` is the list of
  platform timeouts that are still pending, each carrying a fresh numeric
  handle; `clearTimeout` removes the handle, and a fired timeout is spent.
* Asynchronous completions (the upload promise) are passed in as an explicit
  outcome value, since the engine is single-threaded and each completion is
  processed as one atomic step.
-/
/-- Map lookup: `m.get k` for an association-list map. -/
def mapGet {α : Type} (m : List (Nat × α)) (k : Nat) : Option α :=
  (m.find? (fun p => p.1 = k)).map (fun p => p.2)

/-- Map update: `m.set k v` replaces any existing binding of `k`. -/
def mapSet {α : Type} (m : List (Nat × α)) (k : Nat) (v : α) : List (Nat × α) :=
  (k, v) :: m.filter (fun p => p.1 ≠ k)

/-- Map removal: `m.delete k`. -/
def mapDel {α : Type} (m : List (Nat × α)) (k : Nat) : List (Nat × α) :=
  m.filter (fun p => p.1 ≠ k)

/-!
## Data model

Field layout follows the records the source manipulates.  `createdAt`,
`expiresAt`, `lastMessageTimestamp` and cutoff values are `toMs` results
(milliseconds, `0` = absent/unparseable).
-/
/-- A chat message, as handled by the engine (`Message` plus the dynamic
fields the source reads).  `expiresAt` is `toMs(expiresAt || expires_at)`. -/
structure Msg where
  id : Nat
  chatId : Nat
  senderId : Nat
  receiverId : Nat
  content : String
  messageType : String
  fileName : Option String := none
  fileSize : Option Nat := none
  createdAt : Nat
  expiresAt : Nat
  destructTimer : Int := 0
deriving DecidableEq, Repr

/-- Denormalized other participant of a chat summary. -/
structure OtherUser where
  id : Nat
  username : String
  isOnline : Bool
deriving DecidableEq, Repr

/-- The `lastMessage` preview object (`{id, content, createdAt}`). -/
structure LastMessage where
  id : Nat
  content : String
  createdAt : Nat
deriving DecidableEq, Repr

/-- A chat summary as served by `GET /chats/userId` and stored in
`persistentContacts`. -/
structure ChatSummary where
  id : Nat
  participant1Id : Nat
  participant2Id : Nat
  otherUser : OtherUser
  lastMessage : Option LastMessage := none
  lastMessageTimestamp : Nat := 0
  createdAt : Nat := 0
  unreadCount1 : Nat := 0
  unreadCount2 : Nat := 0
  unreadCount : Nat := 0
deriving DecidableEq, Repr

/-- A pending `setTimeout` registered by `scheduleMessageDeletion`.  The
`handle` is the value returned by `setTimeout`; `msgId`/`chatId` are the
captured `message.id` / `message.chatId` of the closure. -/
structure TimerEntry where
  handle : Nat
  msgId : Nat
  chatId : Nat
  fireAt : Nat
deriving DecidableEq, Repr

/-- The engine's state: the React state cells and refs of
`usePersistentChats`, plus the explicit platform-timeout pool. -/
structure EngineState where
  persistentContacts : List ChatSummary
  activeMessages : List (Nat × List Msg)
  selectedChat : Option ChatSummary
  unreadCounts : List (Nat × Nat)
  typingByChat : List (Nat × Bool)
  cutoffs : List (Nat × Nat)
  presence : List (Nat × Bool)
  deletionTimers : List (Nat × Nat)
  liveTimeouts : List TimerEntry
  nextHandle : Nat
deriving DecidableEq, Repr

/-- The chat's visible message sequence (`activeMessages.get(chatId) || []`). -/
def visibleSeq (s : EngineState) (chatId : Nat) : List Msg :=
  (mapGet s.activeMessages chatId).getD []

/-- Unread badge read-out (`unreadCounts.get(chatId) || 0`). -/
def getUnread (s : EngineState) (chatId : Nat) : Nat :=
  (mapGet s.unreadCounts chatId).getD 0

/-- Number of entries with a given message id in a sequence. -/
def countId (msgs : List Msg) (id : Nat) : Nat :=
  (msgs.filter (fun m => m.id = id)).length

/-- Number of live platform timeouts for a message id. -/
def countLive (s : EngineState) (id : Nat) : Nat :=
  (s.liveTimeouts.filter (fun t => t.msgId = id)).length

/-!
## Timers (`clearTimer` / `scheduleMessageDeletion` and timeout firing)
-/
/-- Source `clearTimer` (lines 188-192): `clearTimeout` of the recorded
handle, then delete the map entry. -/
def clearTimer (s : EngineState) (messageId : Nat) : EngineState :=
  match mapGet s.deletionTimers messageId with
  | some h =>
      { s with liveTimeouts := s.liveTimeouts.filter (fun t => t.handle ≠ h),
               deletionTimers := mapDel s.deletionTimers messageId }
  | none => { s with deletionTimers := mapDel s.deletionTimers messageId }

/-- Source `scheduleMessageDeletion` (lines 194-214).  `if (!expMs) return;`
then `ms = Math.max(expMs - Date.now(), 200)`, `clearTimer`, `setTimeout`,
record the handle.  Nat subtraction matches the JS `Math.max` with a
possibly negative difference. -/
def scheduleMessageDeletion (s : EngineState) (message : Msg) (now : Nat) :
    EngineState :=
  if message.expiresAt = 0 then s
  else
    let ms := max (message.expiresAt - now) 200
    let s1 := clearTimer s message.id
    let h := s1.nextHandle
    { s1 with
      liveTimeouts := s1.liveTimeouts ++ [⟨h, message.id, message.chatId, now + ms⟩],
      nextHandle := h + 1,
      deletionTimers := mapSet s1.deletionTimers message.id h }

/-- The platform invoking the timeout with handle `h` (the callback of
source lines 202-210): remove the message with the captured id from the
captured chat's sequence, then `clearTimer(message.id)`.  A handle that is
not live (already cleared or already fired) does nothing. -/
def fireTimer (s : EngineState) (h : Nat) : EngineState :=
  match s.liveTimeouts.find? (fun t => t.handle = h) with
  | none => s
  | some t =>
      let s1 := { s with liveTimeouts := s.liveTimeouts.filter (fun u => u.handle ≠ h) }
      let arr := (mapGet s1.activeMessages t.chatId).getD []
      let s2 := { s1 with
        activeMessages := mapSet s1.activeMessages t.chatId
          (arr.filter (fun m => m.id ≠ t.msgId)) }
      clearTimer s2 t.msgId

/-!
## Presence
-/
/-- Source `applyPresence` (lines 222-238): `if (!uid) return;` then update
the presence cache and patch the flag into matching contacts and the open
chat. -/
def applyPresence (s : EngineState) (uid : Nat) (online : Bool) : EngineState :=
  if uid = 0 then s
  else
    { s with
      presence := mapSet s.presence uid online,
      persistentContacts := s.persistentContacts.map (fun c =>
        if c.otherUser.id = uid then
          { c with otherUser := { c.otherUser with isOnline := online } }
        else c),
      selectedChat := s.selectedChat.map (fun c =>
        if c.otherUser.id = uid then
          { c with otherUser := { c.otherUser with isOnline := online } }
        else c) }

/-- Source `setAllOffline` (lines 240-249): clear the presence cache and
force `isOnline = false` everywhere. -/
def setAllOffline (s : EngineState) : EngineState :=
  { s with
    presence := [],
    persistentContacts := s.persistentContacts.map (fun c =>
      { c with otherUser := { c.otherUser with isOnline := false } }),
    selectedChat := s.selectedChat.map (fun c =>
      { c with otherUser := { c.otherUser with isOnline := false } }) }

/-- Presence read-out: `Boolean(presenceRef.current.get(uid))`. -/
def snapshotFor (s : EngineState) (uid : Nat) : Bool :=
  (mapGet s.presence uid).getD false

/-!
## Cutoff filter and chat-list bump
-/
/-- Source `filterByCutoff` (lines 141-146): no cutoff string, or a cutoff
that parses to `0`, keeps everything; otherwise keep messages created
strictly after the cutoff. -/
def filterByCutoff (msgs : List Msg) (cutoff : Option Nat) : List Msg :=
  match cutoff with
  | none => msgs
  | some c => if c = 0 then msgs else msgs.filter (fun m => m.createdAt > c)

/-- List part of `bumpChatToTopAndUpdateLast` (source lines 261-280):
`findIndex`; `-1` leaves the list untouched; otherwise the first matching
chat is updated (`lastMessage`, `lastMessageTimestamp` with the
`lastMessage?.createdAt || now` fallback) and moved to the front. -/
def bumpList (chatId : Nat) (lm : LastMessage) (now : Nat)
    (prev : List ChatSummary) : List ChatSummary :=
  match prev.find? (fun c => c.id = chatId) with
  | none => prev
  | some current =>
      let updated := { current with
        lastMessage := some lm,
        lastMessageTimestamp := if lm.createdAt ≠ 0 then lm.createdAt else now }
      updated :: prev.eraseP (fun c => c.id = chatId)

/-- State-level wrapper of `bumpChatToTopAndUpdateLast`. -/
def bumpChatToTopAndUpdateLast (s : EngineState) (chatId : Nat)
    (lm : LastMessage) (now : Nat) : EngineState :=
  { s with persistentContacts := bumpList chatId lm now s.persistentContacts }

/-!
## Contact refresh (`fetchContacts`)
-/
/-- Per-slot server unread selection (source lines 299-303):
`unreadCount1` if the local user is participant 1, `unreadCount2` if
participant 2, else `0`. -/
def serverUnreadFor (userId : Nat) (c : ChatSummary) : Nat :=
  if userId = c.participant1Id then c.unreadCount1
  else if userId = c.participant2Id then c.unreadCount2
  else 0

/-- The `c.unreadCount = unread` mutation of the same loop. -/
def computeUnread (userId : Nat) (c : ChatSummary) : ChatSummary :=
  { c with unreadCount := serverUnreadFor userId c }

/-- The `serverUnread` map built by the loop (only strictly positive
counts are recorded). -/
def buildServerUnread (userId : Nat) : List ChatSummary → List (Nat × Nat) →
    List (Nat × Nat)
  | [], acc => acc
  | c :: rest, acc =>
      let un := serverUnreadFor userId c
      buildServerUnread userId rest (if un > 0 then mapSet acc c.id un else acc)

/-- The unread merge loop (source lines 308-315): for every entry of the
server map, `next.set(chatId, Math.max(next.get(chatId) || 0, cnt))`. -/
def mergeUnread : List (Nat × Nat) → List (Nat × Nat) → List (Nat × Nat)
  | acc, [] => acc
  | acc, (k, v) :: rest =>
      mergeUnread (mapSet acc k (max ((mapGet acc k).getD 0) v)) rest

/-- The sort key of the contact sort (source lines 318-321):
`a.lastMessage?.createdAt || a.lastMessageTimestamp || a.createdAt`,
a first-truthy fallback chain. -/
def contactSortKey (c : ChatSummary) : Nat :=
  let lmCreated := match c.lastMessage with
    | some lm => lm.createdAt
    | none => 0
  if lmCreated ≠ 0 then lmCreated
  else if c.lastMessageTimestamp ≠ 0 then c.lastMessageTimestamp
  else c.createdAt

/-- Stable descending insertion for `sortByKeyDesc`. -/
def insertDesc (key : ChatSummary → Nat) (c : ChatSummary) :
    List ChatSummary → List ChatSummary
  | [] => [c]
  | d :: rest =>
      if key d < key c then c :: d :: rest else d :: insertDesc key c rest

/-- Stable descending sort by a numeric key; models the JS
`Array.prototype.sort` (a stable sort) with the numeric comparator
`bTime - aTime`. -/
def sortByKeyDesc (key : ChatSummary → Nat) : List ChatSummary →
    List ChatSummary
  | [] => []
  | c :: rest => insertDesc key c (sortByKeyDesc key rest)

/-- Presence decoration applied after the sort (source lines 325-329):
`online = oid ? Boolean(presence.get(oid)) : false`. -/
def decoratePresence (presence : List (Nat × Bool)) (c : ChatSummary) :
    ChatSummary :=
  let oid := c.otherUser.id
  let online := if oid ≠ 0 then (mapGet presence oid).getD false else false
  { c with otherUser := { c.otherUser with isOnline := online } }

/-- Source `fetchContacts` (lines 288-341), success path, with the fetched
chat list passed in (`contactsRaw`): denormalize the per-slot unread count,
max-merge the positive server counts into the local badges, sort by the
fallback recency key, decorate with cached presence, store. -/
def fetchContacts (s : EngineState) (userId : Nat)
    (contactsRaw : List ChatSummary) : EngineState :=
  if userId = 0 then s
  else
    let contacts := contactsRaw.map (computeUnread userId)
    let su := buildServerUnread userId contacts []
    let unreadNext := mergeUnread s.unreadCounts su
    let sorted := sortByKeyDesc contactSortKey contacts
    let withPresence := sorted.map (decoratePresence s.presence)
    { s with unreadCounts := unreadNext, persistentContacts := withPresence }

/-!
## Message load, chat selection, inbound dispatch, outbound send
-/
/-- Source `loadActiveMessages` (lines 360-384), success path with the
fetched raw list: apply the cutoff filter, replace the chat's sequence,
schedule a deletion timer for every surviving message. -/
def loadActiveMessages (s : EngineState) (chatId : Nat) (msgsRaw : List Msg)
    (now : Nat) : EngineState :=
  let msgs := filterByCutoff msgsRaw (mapGet s.cutoffs chatId)
  let s1 := { s with activeMessages := mapSet s.activeMessages chatId msgs }
  msgs.foldl (fun st m => scheduleMessageDeletion st m now) s1

/-- Source `selectChat` (lines 392-423), local-state part: set the selected
chat, and (when a chat and a user are present) clear the unread badge and
the denormalized `unreadCount` of the chat-list entry.  The mark-read call
and the message load are network steps modelled separately. -/
def selectChat (s : EngineState) (chat : Option ChatSummary) (userId : Nat) :
    EngineState :=
  let s1 := { s with selectedChat := chat }
  match chat with
  | none => s1
  | some ch =>
      if userId = 0 then s1
      else
        { s1 with
          unreadCounts := mapDel s1.unreadCounts ch.id,
          persistentContacts := s1.persistentContacts.map (fun c =>
            if c.id = ch.id then { c with unreadCount := 0 } else c) }

/-- The cutoff rejection test of the `new_message` branch (source lines
696-701): only rejects when the stored cutoff parses, the message's
creation time parses, and the creation time is at-or-before the cutoff. -/
def cutoffRejects (cutoff : Option Nat) (createdAt : Nat) : Bool :=
  match cutoff with
  | none => false
  | some c => c ≠ 0 && createdAt ≠ 0 && createdAt ≤ c

/-- Preview text used when bumping the chat list (source lines 715-716). -/
def previewContent (m : Msg) : String :=
  if m.messageType = "image" then "📷 Photo"
  else if m.messageType = "file" then "📎 File"
  else m.content

/-- The `!selectedChat || selectedChat.id !== m.chatId` test of the unread
bump (source line 721). -/
def chatNotOpen (sel : Option ChatSummary) (chatId : Nat) : Bool :=
  match sel with
  | none => true
  | some c => c.id ≠ chatId

/-- The `new_message` branch of `handleWSData` (source lines 689-731):
receiver guard, cutoff rejection, id-deduplicated append, expiry
scheduling, chat-list bump, and the unread increment when the chat is not
the currently open one. -/
def handleNewMessage (s : EngineState) (userId : Nat) (m : Msg) (now : Nat) :
    EngineState :=
  if m.receiverId ≠ userId then s
  else if cutoffRejects (mapGet s.cutoffs m.chatId) m.createdAt then s
  else
    let arr := visibleSeq s m.chatId
    let s1 :=
      if arr.any (fun x => x.id = m.id) then s
      else { s with activeMessages := mapSet s.activeMessages m.chatId (arr ++ [m]) }
    let s2 := scheduleMessageDeletion s1 m now
    let preview : LastMessage :=
      { id := m.id, content := previewContent m,
        createdAt := if m.createdAt ≠ 0 then m.createdAt else now }
    let s3 := bumpChatToTopAndUpdateLast s2 m.chatId preview now
    if chatNotOpen s3.selectedChat m.chatId then
      { s3 with
        unreadCounts := mapSet s3.unreadCounts m.chatId (getUnread s3 m.chatId + 1) }
    else s3

/-!
## Outbound pipeline (`sendMessage`)
-/
/-- File handed to `sendMessage`. -/
structure FileInfo where
  name : String
  size : Nat
deriving DecidableEq, Repr

/-- Result of the (asynchronous) upload, passed in explicitly.  `none`
fields model absent response fields. -/
inductive UploadOutcome
  | success (url : String) (originalName : Option String) (size : Option Nat)
  | failure
deriving DecidableEq, Repr

/-- The socket payload emitted at the end of `sendMessage`
(source lines 580-593). -/
structure WsPayload where
  type : String
  chatId : Nat
  senderId : Nat
  receiverId : Nat
  content : String
  messageType : String
  destructTimer : Int
  fileName : Option String := none
  fileSize : Option Nat := none
deriving DecidableEq, Repr

/-- JS coercion `Number(destructTimerSec) || 0`: a non-numeric argument collapses to
`0`, a numeric one (zero and negatives included) is kept. -/
def jsNumOr0 : Option Int → Int
  | none => 0
  | some n => n

/-- Embeds `const secs = Math.max(Number(destructTimerSec) || 0, 5)`
(source line 508). -/
def sendSecs (destructTimerSec : Option Int) : Int :=
  max (jsNumOr0 destructTimerSec) 5

/-- JS `a || b` on strings (empty string is falsy). -/
def jsOrStr (a b : String) : String := if a = "" then b else a

/-- JS `a || b` on numbers collapsed to `Nat` (`0` is falsy). -/
def jsOrNat (a b : Nat) : Nat := if a = 0 then b else a

/-- Models the opaque `URL.createObjectURL(file)` value. -/
def objectURL (f : FileInfo) : String := "blob:" ++ f.name

/-- The optimistic placeholder message synthesized by `sendMessage`
(source lines 509-526); `tempId = Date.now()`, `createdAt = now`,
`expiresAt = now + secs * 1000`. -/
def mkOptimistic (chat : ChatSummary) (userId : Nat) (content msgType : String)
    (destructTimerSec : Option Int) (file : Option FileInfo) (now : Nat) : Msg :=
  let secs := sendSecs destructTimerSec
  { id := now, chatId := chat.id, senderId := userId,
    receiverId := chat.otherUser.id,
    content :=
      match file with
      | some f =>
          if msgType = "image" then objectURL f
          else if msgType = "file" then f.name
          else content
      | none => content,
    messageType := msgType,
    fileName := file.map (fun f => f.name),
    fileSize := file.map (fun f => f.size),
    createdAt := now,
    expiresAt := now + secs.toNat * 1000,
    destructTimer := secs }

/-- Source `sendMessage` (lines 503-599) as one atomic step, with the
upload completion passed in: guard, synthesize and append the optimistic
message, schedule its expiry, bump the chat list, then either reconcile the
uploaded URL and emit the socket payload, or (upload failure) remove the
placeholder and emit nothing. -/
def sendMessage (s : EngineState) (userId : Nat) (content msgType : String)
    (destructTimerSec : Option Int) (file : Option FileInfo)
    (uploadResult : UploadOutcome) (now : Nat) :
    EngineState × Option WsPayload :=
  match s.selectedChat with
  | none => (s, none)
  | some chat =>
      if userId = 0 then (s, none)
      else
        let secs := sendSecs destructTimerSec
        let tempId := now
        let optimistic := mkOptimistic chat userId content msgType
          destructTimerSec file now
        let arr := visibleSeq s chat.id
        let sA := { s with
          activeMessages := mapSet s.activeMessages chat.id (arr ++ [optimistic]) }
        let sB := scheduleMessageDeletion sA optimistic now
        let preview : LastMessage :=
          { id := tempId,
            content :=
              if msgType = "image" then "📷 Photo"
              else if msgType = "file" then "📎 File"
              else content,
            createdAt := now }
        let sC := bumpChatToTopAndUpdateLast sB chat.id preview now
        match file, uploadResult with
        | some _, UploadOutcome.failure =>
            let arr2 := (visibleSeq sC chat.id).filter (fun m => m.id ≠ tempId)
            ({ sC with
               activeMessages := mapSet sC.activeMessages chat.id arr2 },
             none)
        | some f, UploadOutcome.success url oname osize =>
            let finalContent := url
            let fName := jsOrStr (oname.getD "") f.name
            let fSize := jsOrNat (osize.getD 0) f.size
            let arr2 := (visibleSeq sC chat.id).map (fun m =>
              if m.id = tempId then
                { m with content := finalContent,
                         fileName := some fName, fileSize := some fSize }
              else m)
            let sD := { sC with
              activeMessages := mapSet sC.activeMessages chat.id arr2 }
            (sD,
             some { type := "message", chatId := chat.id, senderId := userId,
                    receiverId := chat.otherUser.id, content := finalContent,
                    messageType := msgType, destructTimer := secs,
                    fileName := some (jsOrStr fName f.name),
                    fileSize := some (jsOrNat fSize f.size) })
        | none, _ =>
            (sC,
             some { type := "message", chatId := chat.id, senderId := userId,
                    receiverId := chat.otherUser.id, content := content,
                    messageType := msgType, destructTimer := secs })

/-- Modelled from the spec sentence for claim C5 only: the "most recent of
last message timestamp, last-activity timestamp, creation timestamp"
recency key the specification describes; compared against the source's
`contactSortKey`. -/
def specRecencyKey (c : ChatSummary) : Nat :=
  let lmCreated := match c.lastMessage with
    | some lm => lm.createdAt
    | none => 0
  max (max lmCreated c.lastMessageTimestamp) c.createdAt

/-- Empty engine state, the state right after the hook mounts. -/
def stEmpty : EngineState where
  persistentContacts := []
  activeMessages := []
  selectedChat := none
  unreadCounts := []
  typingByChat := []
  cutoffs := []
  presence := []
  deletionTimers := []
  liveTimeouts := []
  nextHandle := 0

/-- A contact with user 8 currently online. -/
def chatWith8 : ChatSummary where
  id := 1
  participant1Id := 7
  participant2Id := 8
  otherUser := { id := 8, username := "b", isOnline := true }

/-- State with one online contact and cached presence for user 8. -/
def stOnline8 : EngineState :=
  { stEmpty with persistentContacts := [chatWith8], presence := [(8, true)] }

/-!
## Claim C1: visibility after a message load
-/
/-- An already-expired message: `expiresAt` 600 is in the past at
`now = 1000`, while `createdAt` 500 passes any absent cutoff. -/
def msgDead : Msg where
  id := 1
  chatId := 1
  senderId := 2
  receiverId := 3
  content := "hi"
  messageType := "text"
  createdAt := 500
  expiresAt := 600

/-- State with chat 1 selected (participants 7 and 8). -/
def stSelected : EngineState :=
  { stEmpty with persistentContacts := [chatWith8], selectedChat := some chatWith8 }

/-- Chat used in the C5 counterexample: the code's fallback key is the
last message's creation time 10, while the most-recent-of key would be the
last-activity timestamp 100. -/
def chatStaleLm : ChatSummary where
  id := 1
  participant1Id := 7
  participant2Id := 8
  otherUser := { id := 8, username := "b", isOnline := false }
  lastMessage := some { id := 11, content := "a", createdAt := 10 }
  lastMessageTimestamp := 100
  createdAt := 1

/-- Chat used in the C5 counterexample: both keys agree at 50. -/
def chatFreshLm : ChatSummary where
  id := 2
  participant1Id := 7
  participant2Id := 9
  otherUser := { id := 9, username := "c", isOnline := false }
  lastMessage := some { id := 12, content := "d", createdAt := 50 }
  lastMessageTimestamp := 0
  createdAt := 2

/-!
## Claim C6: one live expiry timer per message id; firing removes one entry
-/
/-- Well-formedness tying the timer map to the live platform timeouts:
every live timeout is the one recorded for its message id, handles are
unique, and all handles are below the fresh-handle counter. -/
def timersWF (s : EngineState) : Prop :=
  (∀ t ∈ s.liveTimeouts, mapGet s.deletionTimers t.msgId = some t.handle) ∧
  (s.liveTimeouts.map (fun t => t.handle)).Nodup ∧
  (∀ t ∈ s.liveTimeouts, t.handle < s.nextHandle)

theorem find?_filter_ne_key {α : Type} (m : List (Nat × α)) (k i : Nat)
    (h : i ≠ k) :
    (m.filter (fun p => p.1 ≠ k)).find? (fun p => p.1 = i) =
      m.find? (fun p => p.1 = i) := by
  induction m with
  | nil => rfl
  | cons p rest ih =>
    by_cases hp : p.1 = k
    · rw [List.filter_cons_of_neg (by simp [hp]),
        List.find?_cons_of_neg _ (by simp [hp, h.symm])]
      exact ih
    · rw [List.filter_cons_of_pos (by simp [hp])]
      by_cases hpi : p.1 = i
      · rw [List.find?_cons_of_pos _ (by simp [hpi]),
          List.find?_cons_of_pos _ (by simp [hpi])]
      · rw [List.find?_cons_of_neg _ (by simp [hpi]),
          List.find?_cons_of_neg _ (by simp [hpi])]
        exact ih

theorem mapGet_set_self {α : Type} (m : List (Nat × α)) (k : Nat) (v : α) :
    mapGet (mapSet m k v) k = some v := by
  simp [mapGet, mapSet]

theorem mapGet_set_other {α : Type} (m : List (Nat × α)) (k i : Nat) (v : α)
    (h : i ≠ k) : mapGet (mapSet m k v) i = mapGet m i := by
  simp only [mapGet, mapSet]
  rw [List.find?_cons_of_neg _ (by simp [Ne.symm h]),
    find?_filter_ne_key m k i h]

theorem mapGet_del_self {α : Type} (m : List (Nat × α)) (k : Nat) :
    mapGet (mapDel m k) k = none := by
  have hnone : (mapDel m k).find? (fun p => p.1 = k) = none := by
    rw [List.find?_eq_none]
    intro p hp
    have := List.of_mem_filter hp
    simpa using this
  simp [mapGet, hnone]

theorem mapGet_del_other {α : Type} (m : List (Nat × α)) (k i : Nat)
    (h : i ≠ k) : mapGet (mapDel m k) i = mapGet m i := by
  simp only [mapGet, mapDel]
  rw [find?_filter_ne_key m k i h]

/-!
## Frame lemmas
-/
theorem clearTimer_frame (s : EngineState) (id : Nat) :
    (clearTimer s id).activeMessages = s.activeMessages ∧
    (clearTimer s id).persistentContacts = s.persistentContacts ∧
    (clearTimer s id).selectedChat = s.selectedChat ∧
    (clearTimer s id).unreadCounts = s.unreadCounts ∧
    (clearTimer s id).cutoffs = s.cutoffs ∧
    (clearTimer s id).presence = s.presence := by
  unfold clearTimer
  cases mapGet s.deletionTimers id <;> exact ⟨rfl, rfl, rfl, rfl, rfl, rfl⟩

theorem schedule_frame (s : EngineState) (m : Msg) (now : Nat) :
    (scheduleMessageDeletion s m now).activeMessages = s.activeMessages ∧
    (scheduleMessageDeletion s m now).persistentContacts = s.persistentContacts ∧
    (scheduleMessageDeletion s m now).selectedChat = s.selectedChat ∧
    (scheduleMessageDeletion s m now).unreadCounts = s.unreadCounts ∧
    (scheduleMessageDeletion s m now).cutoffs = s.cutoffs ∧
    (scheduleMessageDeletion s m now).presence = s.presence := by
  unfold scheduleMessageDeletion
  split
  · exact ⟨rfl, rfl, rfl, rfl, rfl, rfl⟩
  · have h := clearTimer_frame s m.id
    exact ⟨h.1, h.2.1, h.2.2.1, h.2.2.2.1, h.2.2.2.2.1, h.2.2.2.2.2⟩

theorem foldl_schedule_frame (msgs : List Msg) (s : EngineState) (now : Nat) :
    (msgs.foldl (fun st m => scheduleMessageDeletion st m now) s).activeMessages
        = s.activeMessages ∧
    (msgs.foldl (fun st m => scheduleMessageDeletion st m now) s).cutoffs
        = s.cutoffs := by
  induction msgs generalizing s with
  | nil => exact ⟨rfl, rfl⟩
  | cons m rest ih =>
    have h := schedule_frame s m now
    have hr := ih (scheduleMessageDeletion s m now)
    exact ⟨hr.1.trans h.1, hr.2.trans h.2.2.2.2.1⟩

theorem bump_frame (s : EngineState) (chatId : Nat) (lm : LastMessage)
    (now : Nat) :
    (bumpChatToTopAndUpdateLast s chatId lm now).activeMessages = s.activeMessages ∧
    (bumpChatToTopAndUpdateLast s chatId lm now).selectedChat = s.selectedChat ∧
    (bumpChatToTopAndUpdateLast s chatId lm now).unreadCounts = s.unreadCounts ∧
    (bumpChatToTopAndUpdateLast s chatId lm now).cutoffs = s.cutoffs := by
  exact ⟨rfl, rfl, rfl, rfl⟩

/-!
## Claim C10: bump on a missing chat is a no-op; a present bump only
reorders and rewrites the bumped chat
-/
theorem eraseP_filter_ne_id (chatId : Nat) (l : List ChatSummary) :
    (l.eraseP (fun c => c.id = chatId)).filter (fun c => c.id ≠ chatId) =
      l.filter (fun c => c.id ≠ chatId) := by
  induction l with
  | nil => rfl
  | cons d rest ih =>
    by_cases hd : d.id = chatId
    · rw [List.eraseP_cons_of_pos (by simp [hd]),
        List.filter_cons_of_neg (by simp [hd])]
    · rw [List.eraseP_cons_of_neg (by simp [hd]),
        List.filter_cons_of_pos (by simp [hd]),
        List.filter_cons_of_pos (by simp [hd]), ih]

/-- C10: calling `bumpChatToTopAndUpdateLast` with a `chatId` that does not
occur in the chat list leaves the state's chat list completely unchanged
(no entry is created); for a `chatId` that occurs, the list keeps its
length, every chat other than the bumped one keeps all of its fields and
its relative order, and no chat other than the bumped one is new. -/
theorem claim10_bump_frame_effect (s : EngineState) (chatId : Nat)
    (lm : LastMessage) (now : Nat) :
    ((∀ c ∈ s.persistentContacts, c.id ≠ chatId) →
      (bumpChatToTopAndUpdateLast s chatId lm now).persistentContacts =
        s.persistentContacts) ∧
    (∀ cur ∈ s.persistentContacts, cur.id = chatId →
      ((bumpChatToTopAndUpdateLast s chatId lm now).persistentContacts.length =
          s.persistentContacts.length ∧
        (bumpChatToTopAndUpdateLast s chatId lm now).persistentContacts.filter
            (fun c => c.id ≠ chatId) =
          s.persistentContacts.filter (fun c => c.id ≠ chatId) ∧
        ∀ c ∈ (bumpChatToTopAndUpdateLast s chatId lm now).persistentContacts,
          c.id ≠ chatId → c ∈ s.persistentContacts)) := by
  constructor
  · intro habs
    have hnone : s.persistentContacts.find? (fun c => c.id = chatId) = none := by
      rw [List.find?_eq_none]
      intro c hc
      simpa using habs c hc
    simp [bumpChatToTopAndUpdateLast, bumpList, hnone]
  · intro cur hmem hid
    have hsome : (s.persistentContacts.find? (fun c => c.id = chatId)).isSome := by
      rw [List.find?_isSome]
      exact ⟨cur, hmem, by simpa using hid⟩
    obtain ⟨found, hfound⟩ := Option.isSome_iff_exists.mp hsome
    have hfid : found.id = chatId := by simpa using List.find?_some hfound
    have hfmem : found ∈ s.persistentContacts := List.mem_of_find?_eq_some hfound
    constructor
    · simp only [bumpChatToTopAndUpdateLast, bumpList, hfound]
      rw [List.length_cons,
        List.length_eraseP_of_mem hfmem (by simpa using hfid)]
      have : 0 < s.persistentContacts.length := List.length_pos.mpr
        (List.ne_nil_of_mem hfmem)
      omega
    constructor
    · simp only [bumpChatToTopAndUpdateLast, bumpList, hfound]
      rw [List.filter_cons_of_neg (by simp [hfid])]
      exact eraseP_filter_ne_id chatId s.persistentContacts
    · intro c hc hcid
      simp only [bumpChatToTopAndUpdateLast, bumpList, hfound] at hc
      rcases List.mem_cons.mp hc with hc | hc
      · exact absurd (hc ▸ hfid) hcid
      · exact List.mem_of_mem_eraseP hc

/-- Witness for C10 at a concrete chat list. -/
theorem claim10_bump_frame_effect_witness :
    (bumpChatToTopAndUpdateLast
        { persistentContacts := [], activeMessages := [], selectedChat := none,
          unreadCounts := [], typingByChat := [], cutoffs := [], presence := [],
          deletionTimers := [], liveTimeouts := [], nextHandle := 0 }
        3 { id := 1, content := "x", createdAt := 9 } 9).persistentContacts = [] :=
  (claim10_bump_frame_effect
      { persistentContacts := [], activeMessages := [], selectedChat := none,
        unreadCounts := [], typingByChat := [], cutoffs := [], presence := [],
        deletionTimers := [], liveTimeouts := [], nextHandle := 0 }
      3 { id := 1, content := "x", createdAt := 9 } 9).1 (by simp)

/-!
## Claim C9: invalid expiry means no timer, and no expiry removal
-/
theorem visibleSeq_clearTimer (s : EngineState) (i ch : Nat) :
    visibleSeq (clearTimer s i) ch = visibleSeq s ch := by
  unfold visibleSeq
  rw [(clearTimer_frame s i).1]

/-- C9: when a message's `expiresAt` is absent or unparseable (`toMs` gives
`0`), `scheduleMessageDeletion` is a complete no-op — no timer is
registered and no store or map changes — and, as long as no live timeout
carries that message's id, no timeout firing ever removes the message from
a visible sequence. -/
theorem claim9_invalid_expiry_no_timer (s : EngineState) (m : Msg)
    (now ch h : Nat) (hexp : m.expiresAt = 0) :
    scheduleMessageDeletion s m now = s ∧
    ((∀ t ∈ s.liveTimeouts, t.msgId ≠ m.id) →
      m ∈ visibleSeq s ch → m ∈ visibleSeq (fireTimer s h) ch) := by
  constructor
  · simp [scheduleMessageDeletion, hexp]
  · intro hno hmem
    unfold fireTimer
    cases hf : s.liveTimeouts.find? (fun t => t.handle = h) with
    | none => exact hmem
    | some t =>
      have htmem : t ∈ s.liveTimeouts := List.mem_of_find?_eq_some hf
      have hne : t.msgId ≠ m.id := hno t htmem
      rw [visibleSeq_clearTimer]
      by_cases hch : ch = t.chatId
      · subst hch
        simp only [visibleSeq, mapGet_set_self, Option.getD_some]
        rw [List.mem_filter]
        refine ⟨hmem, by simpa using Ne.symm hne⟩
      · simpa [visibleSeq, mapGet_set_other _ _ _ _ hch] using hmem

/-- Witness for C9 at a concrete state and message. -/
theorem claim9_invalid_expiry_no_timer_witness :
    scheduleMessageDeletion
        { persistentContacts := [], activeMessages := [], selectedChat := none,
          unreadCounts := [], typingByChat := [], cutoffs := [], presence := [],
          deletionTimers := [], liveTimeouts := [], nextHandle := 0 }
        { id := 1, chatId := 2, senderId := 3, receiverId := 4, content := "x",
          messageType := "text", createdAt := 100, expiresAt := 0 } 50 =
      { persistentContacts := [], activeMessages := [], selectedChat := none,
        unreadCounts := [], typingByChat := [], cutoffs := [], presence := [],
        deletionTimers := [], liveTimeouts := [], nextHandle := 0 } :=
  (claim9_invalid_expiry_no_timer
      { persistentContacts := [], activeMessages := [], selectedChat := none,
        unreadCounts := [], typingByChat := [], cutoffs := [], presence := [],
        deletionTimers := [], liveTimeouts := [], nextHandle := 0 }
      { id := 1, chatId := 2, senderId := 3, receiverId := 4, content := "x",
        messageType := "text", createdAt := 100, expiresAt := 0 }
      50 2 0 rfl).1

/-!
## Claim C7: disconnect resets presence to all-offline
-/
/-- C7: `setAllOffline` (run when the transport reports disconnected)
clears the presence cache so every presence query answers offline, forces
`isOnline = false` on every chat summary and on the open chat, keeps
contacts offline across a subsequent contact refresh (which only consults
the cleared cache, defaulting to offline, so unknown ids always read
offline), and only a fresh presence event turns a participant back
online. -/
theorem claim7_disconnect_all_offline (s : EngineState) (uid userId : Nat)
    (cs : List ChatSummary) :
    (∀ u, snapshotFor (setAllOffline s) u = false) ∧
    (∀ c ∈ (setAllOffline s).persistentContacts, c.otherUser.isOnline = false) ∧
    (∀ c, (setAllOffline s).selectedChat = some c →
      c.otherUser.isOnline = false) ∧
    (mapGet s.presence uid = none → snapshotFor s uid = false) ∧
    (userId ≠ 0 →
      ∀ c ∈ (fetchContacts (setAllOffline s) userId cs).persistentContacts,
        c.otherUser.isOnline = false) ∧
    (uid ≠ 0 →
      snapshotFor (applyPresence (setAllOffline s) uid true) uid = true) := by
  refine ⟨?_, ?_, ?_, ?_, ?_, ?_⟩
  · intro u
    simp [snapshotFor, setAllOffline, mapGet]
  · intro c hc
    simp only [setAllOffline, List.mem_map] at hc
    obtain ⟨d, _, hd⟩ := hc
    rw [hd.symm]
  · intro c hc
    cases hsel : s.selectedChat with
    | none => simp [setAllOffline, hsel] at hc
    | some d =>
      simp only [setAllOffline, hsel, Option.map_some', Option.some.injEq] at hc
      rw [← hc]
  · intro h
    simp [snapshotFor, h]
  · intro huid c hc
    simp only [fetchContacts, if_neg huid, List.mem_map] at hc
    obtain ⟨d, _, hd⟩ := hc
    rw [hd.symm]
    simp [decoratePresence, setAllOffline, mapGet]
  · intro huid
    simp [snapshotFor, applyPresence, huid, mapGet_set_self]

/-- Witness for C7 at a concrete state with one online contact. -/
theorem claim7_disconnect_all_offline_witness :
    (∀ c ∈ (setAllOffline stOnline8).persistentContacts,
      c.otherUser.isOnline = false) ∧
    snapshotFor stOnline8 9 = false :=
  ⟨(claim7_disconnect_all_offline stOnline8 9 7 []).2.1,
   (claim7_disconnect_all_offline stOnline8 9 7 []).2.2.2.1 (by decide)⟩

/-- C1 counterexample: a message whose expiry timestamp is already in the
past (`expiresAt = 600 ≤ now = 1000`) survives `loadActiveMessages` and
sits in the visible Message Store sequence, contradicting the claimed
invariant that visibility requires a strictly-future expiry timestamp. -/
theorem claim1_counterexample :
    msgDead.expiresAt ≤ 1000 ∧
    msgDead ∈ visibleSeq (loadActiveMessages stEmpty 1 [msgDead] 1000) 1 := by
  decide

/-- C1 (amended): after `loadForChat`, a message is in the chat's visible
sequence iff it was in the server response and — whenever a parseable
cutoff is stored for the chat — its creation timestamp is strictly after
the cutoff.  Expiry is not part of the load-time filter: already-expired
survivors stay visible until their (re)scheduled deletion timer fires at
least 200ms later. -/
theorem claim1_amended_visibility (s : EngineState) (chatId now : Nat)
    (msgsRaw : List Msg) (m : Msg) :
    m ∈ visibleSeq (loadActiveMessages s chatId msgsRaw now) chatId ↔
      (m ∈ msgsRaw ∧
        ∀ c, mapGet s.cutoffs chatId = some c → c ≠ 0 → c < m.createdAt) := by
  have hseq : visibleSeq (loadActiveMessages s chatId msgsRaw now) chatId =
      filterByCutoff msgsRaw (mapGet s.cutoffs chatId) := by
    unfold loadActiveMessages visibleSeq
    rw [(foldl_schedule_frame _ _ _).1]
    simp [mapGet_set_self]
  rw [hseq]
  cases hcut : mapGet s.cutoffs chatId with
  | none => simp [filterByCutoff]
  | some c =>
    by_cases hc0 : c = 0
    · subst hc0
      simp [filterByCutoff]
    · simp only [filterByCutoff, if_neg hc0, List.mem_filter]
      constructor
      · rintro ⟨hm, hgt⟩
        refine ⟨hm, ?_⟩
        rintro c2 hc2 _
        rw [Option.some.injEq] at hc2
        subst hc2
        simpa using hgt
      · rintro ⟨hm, hall⟩
        exact ⟨hm, by simpa using hall c rfl hc0⟩

/-!
## Claim C8: destruct-timer floor at 5 seconds
-/
/-- C8: `sendMessage` floors every requested destruct timer at 5 seconds
(`max(Number(requested) || 0, 5)`), covering zero, negative and non-numeric
requests; the optimistic message's absolute expiry equals its creation
time plus exactly that floored duration (in milliseconds); the optimistic
message is what lands in the visible sequence; and the emitted socket
payload carries the same floored duration for both the no-file send and a
successful file send. -/
theorem claim8_destruct_timer_floor (s : EngineState) (userId : Nat)
    (content msgType url : String) (q : Option Int) (file : Option FileInfo)
    (f : FileInfo) (chat : ChatSummary) (now : Nat)
    (hsel : s.selectedChat = some chat) (huid : userId ≠ 0) :
    (∀ r : Int, sendSecs (some r) = max r 5) ∧
    sendSecs none = 5 ∧
    (5 : Int) ≤ sendSecs q ∧
    ((mkOptimistic chat userId content msgType q file now).expiresAt =
      (mkOptimistic chat userId content msgType q file now).createdAt +
        (sendSecs q).toNat * 1000) ∧
    ((sendMessage s userId content msgType q none
        (UploadOutcome.success url none none) now).2.map
          (fun p => p.destructTimer) = some (sendSecs q)) ∧
    ((sendMessage s userId content msgType q (some f)
        (UploadOutcome.success url none none) now).2.map
          (fun p => p.destructTimer) = some (sendSecs q)) ∧
    (mkOptimistic chat userId content msgType q none now ∈
      visibleSeq (sendMessage s userId content msgType q none
        (UploadOutcome.success url none none) now).1 chat.id) := by
  refine ⟨?_, rfl, ?_, rfl, ?_, ?_, ?_⟩
  · intro r
    simp [sendSecs, jsNumOr0]
  · exact le_max_right _ _
  · simp [sendMessage, hsel, huid]
  · simp [sendMessage, hsel, huid]
  · simp only [sendMessage, hsel, if_neg huid]
    unfold visibleSeq
    rw [(bump_frame _ _ _ _).1, (schedule_frame _ _ _).1]
    simp [mapGet_set_self]

/-- Witness for C8: a concrete zero-timer send. -/
theorem claim8_destruct_timer_floor_witness :
    (5 : Int) ≤ sendSecs (some 0) ∧
    (sendMessage stSelected 7 "hey" "text" (some 0) none
        (UploadOutcome.success "u" none none) 4000).2.map
          (fun p => p.destructTimer) = some (sendSecs (some 0)) :=
  ⟨(claim8_destruct_timer_floor stSelected 7 "hey" "text" "u" (some 0) none
      { name := "a", size := 1 } chatWith8 4000 rfl (by decide)).2.2.1,
   (claim8_destruct_timer_floor stSelected 7 "hey" "text" "u" (some 0) none
      { name := "a", size := 1 } chatWith8 4000 rfl (by decide)).2.2.2.2.1⟩

/-!
## Claim C3: upload failure rollback
-/
theorem visibleSeq_schedule (s : EngineState) (m : Msg) (now ch : Nat) :
    visibleSeq (scheduleMessageDeletion s m now) ch = visibleSeq s ch := by
  unfold visibleSeq
  rw [(schedule_frame s m now).1]

theorem visibleSeq_bump (s : EngineState) (chatId : Nat) (lm : LastMessage)
    (now ch : Nat) :
    visibleSeq (bumpChatToTopAndUpdateLast s chatId lm now) ch =
      visibleSeq s ch := by
  unfold visibleSeq
  rw [(bump_frame s chatId lm now).1]

theorem visibleSeq_setSeq (s : EngineState) (ch : Nat) (msgs : List Msg) :
    visibleSeq { s with activeMessages := mapSet s.activeMessages ch msgs } ch = msgs := by
  unfold visibleSeq
  simp [mapGet_set_self]

/-- C3 counterexample: on an attached-file send whose upload fails, the
Chat List Store does not revert — the bumped order and placeholder preview
survive — so the claimed restoration of the prior chat-list state is
false. -/
theorem claim3_counterexample :
    (sendMessage stSelected 7 "pic" "image" (some 10)
        (some { name := "a.png", size := 3 })
        UploadOutcome.failure 5000).1.persistentContacts ≠
      stSelected.persistentContacts := by
  decide

/-- C3 (amended): if `sendMessage` is called with an attached file and the
upload fails, the optimistic placeholder (the temporary id `now`) is
removed from the Message Store, no socket emission occurs, and the chat's
visible sequence is back to its pre-send content — but the Chat List Store
is NOT reverted: it remains the bumped list with the placeholder
preview. -/
theorem claim3_amended_upload_failure (s : EngineState) (userId : Nat)
    (content msgType : String) (q : Option Int) (f : FileInfo)
    (chat : ChatSummary) (now : Nat)
    (hsel : s.selectedChat = some chat) (huid : userId ≠ 0) :
    (sendMessage s userId content msgType q (some f)
        UploadOutcome.failure now).2 = none ∧
    (∀ m ∈ visibleSeq (sendMessage s userId content msgType q (some f)
        UploadOutcome.failure now).1 chat.id, m.id ≠ now) ∧
    visibleSeq (sendMessage s userId content msgType q (some f)
        UploadOutcome.failure now).1 chat.id =
      (visibleSeq s chat.id).filter (fun m => m.id ≠ now) ∧
    (sendMessage s userId content msgType q (some f)
        UploadOutcome.failure now).1.persistentContacts =
      bumpList chat.id
        { id := now,
          content := if msgType = "image" then "📷 Photo"
            else if msgType = "file" then "📎 File" else content,
          createdAt := now } now s.persistentContacts := by
  have hseq : visibleSeq (sendMessage s userId content msgType q (some f)
      UploadOutcome.failure now).1 chat.id =
      (visibleSeq s chat.id).filter (fun m => m.id ≠ now) := by
    simp only [sendMessage, hsel, if_neg huid]
    rw [visibleSeq_setSeq, visibleSeq_bump, visibleSeq_schedule]
    unfold visibleSeq
    rw [mapGet_set_self, Option.getD_some, List.filter_append]
    simp [mkOptimistic]
  refine ⟨?_, ?_, hseq, ?_⟩
  · simp only [sendMessage, hsel, if_neg huid]
  · intro m hm
    rw [hseq] at hm
    exact of_decide_eq_true (List.mem_filter.mp hm).2
  · simp only [sendMessage, hsel, if_neg huid]
    simp only [bumpChatToTopAndUpdateLast]
    rw [(schedule_frame _ _ _).2.1]

/-- Witness for C3 (amended) at a concrete failing image send. -/
theorem claim3_amended_upload_failure_witness :
    (sendMessage stSelected 7 "pic" "image" (some 10)
        (some { name := "a.png", size := 3 })
        UploadOutcome.failure 5000).2 = none :=
  (claim3_amended_upload_failure stSelected 7 "pic" "image" (some 10)
      { name := "a.png", size := 3 } chatWith8 5000 rfl (by decide)).1

/-!
## Claim C2: new_message guards, dedup and unread bump
-/
theorem sched_selectedChat (s : EngineState) (m : Msg) (now : Nat) :
    (scheduleMessageDeletion s m now).selectedChat = s.selectedChat :=
  (schedule_frame s m now).2.2.1

theorem sched_cutoffs (s : EngineState) (m : Msg) (now : Nat) :
    (scheduleMessageDeletion s m now).cutoffs = s.cutoffs :=
  (schedule_frame s m now).2.2.2.2.1

theorem bump_selectedChat (s : EngineState) (chatId : Nat) (lm : LastMessage)
    (now : Nat) :
    (bumpChatToTopAndUpdateLast s chatId lm now).selectedChat = s.selectedChat :=
  (bump_frame s chatId lm now).2.1

theorem bump_cutoffs (s : EngineState) (chatId : Nat) (lm : LastMessage)
    (now : Nat) :
    (bumpChatToTopAndUpdateLast s chatId lm now).cutoffs = s.cutoffs :=
  (bump_frame s chatId lm now).2.2.2

theorem getUnread_schedule (s : EngineState) (m : Msg) (now ch : Nat) :
    getUnread (scheduleMessageDeletion s m now) ch = getUnread s ch := by
  unfold getUnread
  rw [(schedule_frame s m now).2.2.2.1]

theorem getUnread_bump (s : EngineState) (chatId : Nat) (lm : LastMessage)
    (now ch : Nat) :
    getUnread (bumpChatToTopAndUpdateLast s chatId lm now) ch = getUnread s ch := by
  unfold getUnread
  rw [(bump_frame s chatId lm now).2.2.1]

theorem visibleSeq_set_unread (s : EngineState) (k v ch : Nat) :
    visibleSeq { s with unreadCounts := mapSet s.unreadCounts k v } ch =
      visibleSeq s ch := rfl

theorem handleNewMessage_cutoffs (s : EngineState) (userId : Nat) (m : Msg)
    (now : Nat) :
    (handleNewMessage s userId m now).cutoffs = s.cutoffs := by
  unfold handleNewMessage
  split
  · rfl
  split
  · rfl
  dsimp only
  split <;> split <;> split <;>
    simp [sched_cutoffs, bump_cutoffs]

theorem handleNewMessage_seq (s : EngineState) (userId : Nat) (m : Msg)
    (now : Nat) (hrecv : m.receiverId = userId)
    (hcut : cutoffRejects (mapGet s.cutoffs m.chatId) m.createdAt = false) :
    visibleSeq (handleNewMessage s userId m now) m.chatId =
      (if (visibleSeq s m.chatId).any (fun x => x.id = m.id) then
        visibleSeq s m.chatId
      else visibleSeq s m.chatId ++ [m]) := by
  unfold handleNewMessage
  rw [if_neg (by simp [hrecv]), if_neg (by simp [hcut])]
  dsimp only
  by_cases hany :
      ((visibleSeq s m.chatId).any fun x => decide (x.id = m.id)) = true
  · rw [if_pos hany, if_pos hany]
    split <;> split <;>
      first
      | rw [visibleSeq_set_unread, visibleSeq_bump, visibleSeq_schedule]
      | rw [visibleSeq_bump, visibleSeq_schedule]
  · rw [if_neg hany, if_neg hany]
    split <;> split <;>
      first
      | rw [visibleSeq_set_unread, visibleSeq_bump, visibleSeq_schedule,
          visibleSeq_setSeq]
      | rw [visibleSeq_bump, visibleSeq_schedule, visibleSeq_setSeq]

theorem countId_append_one (arr : List Msg) (m : Msg) :
    countId (arr ++ [m]) m.id = countId arr m.id + 1 := by
  simp [countId, List.filter_append]

theorem countId_zero_iff_any_false (arr : List Msg) (i : Nat) :
    countId arr i = 0 ↔ arr.any (fun x => x.id = i) = false := by
  simp [countId, List.length_eq_zero, List.filter_eq_nil_iff]

theorem getUnread_set_unread_self (s : EngineState) (k v : Nat) :
    getUnread { s with unreadCounts := mapSet s.unreadCounts k v } k = v := by
  unfold getUnread
  rw [mapGet_set_self]
  rfl

theorem getUnread_set_seq (s : EngineState) (c : Nat) (l : List Msg) (ch : Nat) :
    getUnread { s with activeMessages := mapSet s.activeMessages c l } ch =
      getUnread s ch := rfl

theorem unread_finalize (s3 s : EngineState) (ch : Nat)
    (hsel : s3.selectedChat = s.selectedChat)
    (hun : getUnread s3 ch = getUnread s ch) :
    getUnread (if chatNotOpen s3.selectedChat ch then
        { s3 with unreadCounts := mapSet s3.unreadCounts ch (getUnread s3 ch + 1) }
      else s3) ch =
      (if chatNotOpen s.selectedChat ch then getUnread s ch + 1
       else getUnread s ch) := by
  by_cases hopen : chatNotOpen s3.selectedChat ch = true
  · rw [if_pos hopen, if_pos (hsel ▸ hopen), getUnread_set_unread_self, hun]
  · rw [if_neg hopen, if_neg (hsel ▸ hopen), hun]

theorem handleNewMessage_unread (s : EngineState) (userId : Nat) (m : Msg)
    (now : Nat) (hrecv : m.receiverId = userId)
    (hcut : cutoffRejects (mapGet s.cutoffs m.chatId) m.createdAt = false) :
    getUnread (handleNewMessage s userId m now) m.chatId =
      (if chatNotOpen s.selectedChat m.chatId then getUnread s m.chatId + 1
       else getUnread s m.chatId) := by
  unfold handleNewMessage
  rw [if_neg (by simp [hrecv]), if_neg (by simp [hcut])]
  dsimp only
  by_cases hany :
      ((visibleSeq s m.chatId).any fun x => decide (x.id = m.id)) = true
  · rw [if_pos hany]
    refine unread_finalize _ s m.chatId ?_ ?_
    · rw [bump_selectedChat, sched_selectedChat]
    · rw [getUnread_bump, getUnread_schedule]
  · rw [if_neg hany]
    refine unread_finalize _ s m.chatId ?_ ?_
    · rw [bump_selectedChat, sched_selectedChat]
    · rw [getUnread_bump, getUnread_schedule, getUnread_set_seq]

/-- C2: for an inbound `new_message` event, (a) nothing changes unless the
message is addressed to the local user; (b) when the chat has a stored,
parseable cutoff and the message's (parseable) creation time is at or
before it, the event is rejected with no state change; (c) an accepted id
delivered twice leaves exactly one entry with that id in the chat's
sequence; and (d) on acceptance the chat's unread count is incremented
exactly when the chat is not the currently open one. -/
theorem claim2_new_message_rules (s : EngineState) (userId : Nat) (m : Msg)
    (now : Nat) :
    (m.receiverId ≠ userId → handleNewMessage s userId m now = s) ∧
    (∀ c, mapGet s.cutoffs m.chatId = some c → c ≠ 0 → m.createdAt ≠ 0 →
      m.createdAt ≤ c → handleNewMessage s userId m now = s) ∧
    (m.receiverId = userId →
      cutoffRejects (mapGet s.cutoffs m.chatId) m.createdAt = false →
      countId (visibleSeq s m.chatId) m.id ≤ 1 →
      countId (visibleSeq (handleNewMessage (handleNewMessage s userId m now)
        userId m now) m.chatId) m.id = 1) ∧
    (m.receiverId = userId →
      cutoffRejects (mapGet s.cutoffs m.chatId) m.createdAt = false →
      getUnread (handleNewMessage s userId m now) m.chatId =
        (if chatNotOpen s.selectedChat m.chatId then getUnread s m.chatId + 1
         else getUnread s m.chatId)) := by
  refine ⟨?_, ?_, ?_, ?_⟩
  · intro h
    unfold handleNewMessage
    rw [if_pos h]
  · intro c hc hc0 hcr hle
    unfold handleNewMessage
    by_cases hrecv : m.receiverId ≠ userId
    · rw [if_pos hrecv]
    · rw [if_neg hrecv, if_pos (by rw [hc]; simp [cutoffRejects, hc0, hcr, hle])]
  · intro hrecv hcut hle
    have hcut2 : cutoffRejects
        (mapGet (handleNewMessage s userId m now).cutoffs m.chatId)
        m.createdAt = false := by
      rw [handleNewMessage_cutoffs]
      exact hcut
    have h1 := handleNewMessage_seq s userId m now hrecv hcut
    have h2 := handleNewMessage_seq (handleNewMessage s userId m now)
      userId m now hrecv hcut2
    by_cases hany :
        ((visibleSeq s m.chatId).any fun x => decide (x.id = m.id)) = true
    · rw [if_pos hany] at h1
      rw [h1, if_pos hany] at h2
      rw [h2]
      have hpos : countId (visibleSeq s m.chatId) m.id ≠ 0 := by
        intro h0
        rw [(countId_zero_iff_any_false _ _).mp h0] at hany
        exact Bool.false_ne_true hany
      omega
    · rw [if_neg hany] at h1
      have hany2 : ((visibleSeq s m.chatId ++ [m]).any
          fun x => decide (x.id = m.id)) = true := by
        simp
      rw [h1, if_pos hany2] at h2
      rw [h2, countId_append_one]
      have h0 : countId (visibleSeq s m.chatId) m.id = 0 :=
        (countId_zero_iff_any_false _ _).mpr (by simpa using hany)
      omega
  · intro hrecv hcut
    exact handleNewMessage_unread s userId m now hrecv hcut

/-- Witness for C2: a concrete rejected event (wrong receiver) and a
concrete double delivery of the same id. -/
theorem claim2_new_message_rules_witness :
    handleNewMessage stEmpty 7
      { id := 4, chatId := 1, senderId := 8, receiverId := 9, content := "x",
        messageType := "text", createdAt := 100, expiresAt := 900 } 200 =
      stEmpty ∧
    countId (visibleSeq (handleNewMessage (handleNewMessage stEmpty 7
      { id := 4, chatId := 1, senderId := 8, receiverId := 7, content := "x",
        messageType := "text", createdAt := 100, expiresAt := 900 } 200) 7
      { id := 4, chatId := 1, senderId := 8, receiverId := 7, content := "x",
        messageType := "text", createdAt := 100, expiresAt := 900 } 200) 1) 4 = 1 :=
  ⟨(claim2_new_message_rules stEmpty 7
      { id := 4, chatId := 1, senderId := 8, receiverId := 9, content := "x",
        messageType := "text", createdAt := 100, expiresAt := 900 } 200).1
      (by decide),
   (claim2_new_message_rules stEmpty 7
      { id := 4, chatId := 1, senderId := 8, receiverId := 7, content := "x",
        messageType := "text", createdAt := 100, expiresAt := 900 } 200).2.2.1
      rfl (by decide) (by decide)⟩

/-!
## Claim C5: contact-list sort order
-/
theorem mem_insertDesc (key : ChatSummary → Nat) (c x : ChatSummary)
    (l : List ChatSummary) :
    x ∈ insertDesc key c l ↔ x = c ∨ x ∈ l := by
  induction l with
  | nil => simp [insertDesc]
  | cons d rest ih =>
    unfold insertDesc
    split
    · simp only [List.mem_cons]
    · simp only [List.mem_cons, ih]
      tauto

theorem pairwise_insertDesc (key : ChatSummary → Nat) (c : ChatSummary)
    (l : List ChatSummary) (h : l.Pairwise (fun a b => key b ≤ key a)) :
    (insertDesc key c l).Pairwise (fun a b => key b ≤ key a) := by
  induction l with
  | nil => simp [insertDesc]
  | cons d rest ih =>
    rw [List.pairwise_cons] at h
    unfold insertDesc
    split
    · rename_i hlt
      rw [List.pairwise_cons]
      refine ⟨?_, List.pairwise_cons.mpr h⟩
      intro x hx
      rcases List.mem_cons.mp hx with rfl | hx
      · exact le_of_lt hlt
      · exact le_trans (h.1 x hx) (le_of_lt hlt)
    · rename_i hge
      rw [List.pairwise_cons]
      refine ⟨?_, ih h.2⟩
      intro x hx
      rcases (mem_insertDesc key c x rest).mp hx with rfl | hx
      · exact le_of_not_lt hge
      · exact h.1 x hx

theorem pairwise_sortByKeyDesc (key : ChatSummary → Nat)
    (l : List ChatSummary) :
    (sortByKeyDesc key l).Pairwise (fun a b => key b ≤ key a) := by
  induction l with
  | nil => exact List.Pairwise.nil
  | cons c rest ih => exact pairwise_insertDesc key c _ ih

/-- C5 counterexample: after a contact load the list is ordered by the
code's first-truthy fallback key, not by the most-recent-of key: a chat
whose stale `lastMessage.createdAt` (10) hides a fresher
`lastMessageTimestamp` (100) is sorted below a chat with key 50, so the
result is not sorted descending by the spec's recency maximum. -/
theorem claim5_counterexample :
    ¬ (fetchContacts stEmpty 7 [chatStaleLm, chatFreshLm]).persistentContacts.Pairwise
        (fun a b => specRecencyKey b ≤ specRecencyKey a) := by
  decide

/-- C5 (amended): after `fetchContacts` the chat list is sorted descending
by the fallback key `lastMessage?.createdAt || lastMessageTimestamp ||
createdAt` (first present-and-parseable value, not the maximum of the
three). -/
theorem claim5_amended_sort_order (s : EngineState) (userId : Nat)
    (cs : List ChatSummary) (huid : userId ≠ 0) :
    (fetchContacts s userId cs).persistentContacts.Pairwise
      (fun a b => contactSortKey b ≤ contactSortKey a) := by
  unfold fetchContacts
  rw [if_neg huid]
  dsimp only
  exact List.Pairwise.map _ (fun a b hab => hab)
    (pairwise_sortByKeyDesc contactSortKey (cs.map (computeUnread userId)))

/-- Witness for C5 (amended) on a concrete two-chat load. -/
theorem claim5_amended_sort_order_witness :
    (fetchContacts stEmpty 7 [chatStaleLm, chatFreshLm]).persistentContacts.Pairwise
      (fun a b => contactSortKey b ≤ contactSortKey a) :=
  claim5_amended_sort_order stEmpty 7 [chatStaleLm, chatFreshLm] (by decide)

/-!
## Claim C4: unread max-merge and reset on open
-/
theorem buildServerUnread_get_absent (u : Nat) (cs : List ChatSummary)
    (acc : List (Nat × Nat)) (i : Nat) (habs : ∀ c ∈ cs, c.id ≠ i) :
    mapGet (buildServerUnread u cs acc) i = mapGet acc i := by
  induction cs generalizing acc with
  | nil => rfl
  | cons c rest ih =>
    unfold buildServerUnread
    dsimp only
    rw [ih _ (fun d hd => habs d (List.mem_cons_of_mem c hd))]
    split
    · exact mapGet_set_other _ _ _ _ (Ne.symm (habs c (List.mem_cons_self c rest)))
    · rfl

theorem buildServerUnread_get_mem (u : Nat) (cs : List ChatSummary)
    (acc : List (Nat × Nat)) (c : ChatSummary)
    (hnd : (cs.map (fun x => x.id)).Nodup) (hmem : c ∈ cs) :
    mapGet (buildServerUnread u cs acc) c.id =
      (if serverUnreadFor u c > 0 then some (serverUnreadFor u c)
       else mapGet acc c.id) := by
  induction cs generalizing acc with
  | nil => cases hmem
  | cons d rest ih =>
    rw [List.map_cons, List.nodup_cons] at hnd
    rcases List.mem_cons.mp hmem with rfl | hmem2
    · have habs : ∀ x ∈ rest, x.id ≠ c.id := by
        intro x hx hxe
        exact hnd.1 (hxe ▸ List.mem_map_of_mem (fun y => y.id) hx)
      unfold buildServerUnread
      dsimp only
      rw [buildServerUnread_get_absent u rest _ c.id habs]
      split
      · exact mapGet_set_self _ _ _
      · rfl
    · have hne : d.id ≠ c.id := by
        intro hde
        exact hnd.1 (hde ▸ List.mem_map_of_mem (fun y => y.id) hmem2)
      unfold buildServerUnread
      dsimp only
      rw [ih _ hnd.2 hmem2]
      split
      · rfl
      · split
        · rw [mapGet_set_other _ _ _ _ (Ne.symm hne)]
        · rfl

theorem mapSet_keys_nodup (m : List (Nat × Nat)) (k v : Nat)
    (h : (m.map Prod.fst).Nodup) : ((mapSet m k v).map Prod.fst).Nodup := by
  simp only [mapSet, List.map_cons, List.nodup_cons]
  constructor
  · intro hk
    rcases List.mem_map.mp hk with ⟨p, hp, hpe⟩
    have := List.of_mem_filter hp
    simp [hpe] at this
  · exact ((List.filter_sublist m).map Prod.fst).nodup h

theorem buildServerUnread_keys_nodup (u : Nat) (cs : List ChatSummary)
    (acc : List (Nat × Nat)) (h : (acc.map Prod.fst).Nodup) :
    ((buildServerUnread u cs acc).map Prod.fst).Nodup := by
  induction cs generalizing acc with
  | nil => exact h
  | cons c rest ih =>
    unfold buildServerUnread
    dsimp only
    split
    · exact ih _ (mapSet_keys_nodup _ _ _ h)
    · exact ih _ h

theorem mergeUnread_get_absent (acc su : List (Nat × Nat)) (i : Nat)
    (habs : ∀ kv ∈ su, kv.1 ≠ i) :
    mapGet (mergeUnread acc su) i = mapGet acc i := by
  induction su generalizing acc with
  | nil => rfl
  | cons kv rest ih =>
    unfold mergeUnread
    rw [ih _ (fun p hp => habs p (List.mem_cons_of_mem kv hp))]
    exact mapGet_set_other _ _ _ _ (Ne.symm (habs kv (List.mem_cons_self kv rest)))

theorem mapGet_eq_none_of_no_key (m : List (Nat × Nat)) (i : Nat)
    (h : mapGet m i = none) : ∀ kv ∈ m, kv.1 ≠ i := by
  intro kv hkv hke
  simp only [mapGet, Option.map_eq_none'] at h
  rw [List.find?_eq_none] at h
  exact absurd (by simpa using hke) (h kv hkv)

theorem mapGet_some_mem (m : List (Nat × Nat)) (k v : Nat)
    (h : mapGet m k = some v) : (k, v) ∈ m := by
  simp only [mapGet] at h
  cases hf : m.find? (fun p => p.1 = k) with
  | none => rw [hf] at h; cases h
  | some p =>
    rw [hf] at h
    have hk : p.1 = k := by simpa using List.find?_some hf
    have hv : p.2 = v := by simpa using h
    have : p = (k, v) := by
      cases p
      simp_all
    exact this ▸ List.mem_of_find?_eq_some hf

theorem mapGet_cons_pos {α : Type} (kv : Nat × α) (rest : List (Nat × α))
    (k : Nat) (h : kv.1 = k) : mapGet (kv :: rest) k = some kv.2 := by
  simp [mapGet, h]

theorem mapGet_cons_neg {α : Type} (kv : Nat × α) (rest : List (Nat × α))
    (k : Nat) (h : kv.1 ≠ k) : mapGet (kv :: rest) k = mapGet rest k := by
  have hfind : List.find? (fun p => p.1 = k) (kv :: rest) =
      List.find? (fun p => p.1 = k) rest :=
    List.find?_cons_of_neg _ (by simpa using h)
  simp [mapGet, hfind]

theorem mergeUnread_get_mem (acc su : List (Nat × Nat)) (k v : Nat)
    (hnd : (su.map Prod.fst).Nodup) (hget : mapGet su k = some v) :
    mapGet (mergeUnread acc su) k = some (max ((mapGet acc k).getD 0) v) := by
  induction su generalizing acc with
  | nil => cases hget
  | cons kv rest ih =>
    rw [List.map_cons, List.nodup_cons] at hnd
    by_cases hk : kv.1 = k
    · have hv : kv.2 = v := by
        rw [mapGet_cons_pos kv rest k hk] at hget
        simpa using hget
      have habs : ∀ p ∈ rest, p.1 ≠ k := by
        intro p hp hpe
        exact hnd.1 (hk ▸ hpe ▸ List.mem_map_of_mem Prod.fst hp)
      unfold mergeUnread
      rw [mergeUnread_get_absent _ _ _ habs, hk, hv, mapGet_set_self]
    · have hget2 : mapGet rest k = some v := by
        rw [mapGet_cons_neg kv rest k hk] at hget
        exact hget
      unfold mergeUnread
      rw [ih _ hnd.2 hget2, mapGet_set_other _ _ _ _ (Ne.symm hk)]

theorem mergeUnread_mono (acc su : List (Nat × Nat)) (i : Nat) :
    (mapGet acc i).getD 0 ≤ (mapGet (mergeUnread acc su) i).getD 0 := by
  induction su generalizing acc with
  | nil => exact le_refl _
  | cons kv rest ih =>
    unfold mergeUnread
    refine le_trans ?_ (ih (mapSet acc kv.1 (max ((mapGet acc kv.1).getD 0) kv.2)))
    by_cases hk : i = kv.1
    · subst hk
      rw [mapGet_set_self]
      exact le_max_left _ _
    · rw [mapGet_set_other _ _ _ _ hk]

theorem getUnread_fetch (s : EngineState) (userId : Nat)
    (cs : List ChatSummary) (i : Nat) (huid : userId ≠ 0) :
    getUnread (fetchContacts s userId cs) i =
      (mapGet (mergeUnread s.unreadCounts
        (buildServerUnread userId (cs.map (computeUnread userId)) [])) i).getD 0 := by
  unfold fetchContacts getUnread
  rw [if_neg huid]

/-- C4: on every contact refresh the local unread count of every chat in
the server response becomes `max(previous local, server-reported)`, chats
absent from the response keep their previous count, the merge never
decreases any count, and selecting (opening) a chat resets its unread
count to exactly 0. -/
theorem claim4_unread_merge (s : EngineState) (userId : Nat)
    (cs : List ChatSummary) (hnd : (cs.map (fun c => c.id)).Nodup)
    (huid : userId ≠ 0) :
    (∀ c ∈ cs, getUnread (fetchContacts s userId cs) c.id =
      max (getUnread s c.id) (serverUnreadFor userId c)) ∧
    (∀ i, (∀ c ∈ cs, c.id ≠ i) →
      getUnread (fetchContacts s userId cs) i = getUnread s i) ∧
    (∀ i, getUnread s i ≤ getUnread (fetchContacts s userId cs) i) ∧
    (∀ chat, getUnread (selectChat s (some chat) userId) chat.id = 0) := by
  have hids : (cs.map (computeUnread userId)).map (fun c => c.id) =
      cs.map (fun c => c.id) := by
    rw [List.map_map]
    rfl
  have hnd2 : ((cs.map (computeUnread userId)).map (fun c => c.id)).Nodup := by
    rw [hids]
    exact hnd
  have hsuNodup : ((buildServerUnread userId (cs.map (computeUnread userId))
      []).map Prod.fst).Nodup :=
    buildServerUnread_keys_nodup _ _ _ List.nodup_nil
  refine ⟨?_, ?_, ?_, ?_⟩
  · intro c hc
    rw [getUnread_fetch s userId cs c.id huid]
    have hmem : computeUnread userId c ∈ cs.map (computeUnread userId) :=
      List.mem_map_of_mem _ hc
    have hbuild : mapGet (buildServerUnread userId
        (cs.map (computeUnread userId)) []) c.id =
        (if serverUnreadFor userId c > 0 then some (serverUnreadFor userId c)
         else mapGet [] c.id) :=
      buildServerUnread_get_mem userId
        (cs.map (computeUnread userId)) [] (computeUnread userId c) hnd2 hmem
    by_cases hun : serverUnreadFor userId c > 0
    · have hbuild2 : mapGet (buildServerUnread userId
          (cs.map (computeUnread userId)) []) c.id =
          some (serverUnreadFor userId c) := by
        rw [hbuild, if_pos hun]
      rw [mergeUnread_get_mem _ _ _ _ hsuNodup hbuild2]
      rfl
    · have hbuild2 : mapGet (buildServerUnread userId
          (cs.map (computeUnread userId)) []) c.id = none := by
        rw [hbuild, if_neg hun]
        rfl
      rw [mergeUnread_get_absent _ _ _
        (mapGet_eq_none_of_no_key _ _ hbuild2)]
      have : serverUnreadFor userId c = 0 := by omega
      rw [this]
      simp [getUnread]
  · intro i habs
    rw [getUnread_fetch s userId cs i huid]
    have habs2 : ∀ d ∈ cs.map (computeUnread userId), d.id ≠ i := by
      intro d hd
      rcases List.mem_map.mp hd with ⟨c, hc, rfl⟩
      exact habs c hc
    have hbuild : mapGet (buildServerUnread userId
        (cs.map (computeUnread userId)) []) i = none := by
      rw [buildServerUnread_get_absent _ _ _ _ habs2]
      rfl
    rw [mergeUnread_get_absent _ _ _ (mapGet_eq_none_of_no_key _ _ hbuild)]
    rfl
  · intro i
    rw [getUnread_fetch s userId cs i huid]
    exact mergeUnread_mono _ _ _
  · intro chat
    unfold selectChat getUnread
    dsimp only
    rw [if_neg huid]
    dsimp only
    rw [mapGet_del_self]
    rfl

/-- Witness for C4: one server chat for user 7 with counter 3 against a
local count of 1, and a concrete chat selection. -/
theorem claim4_unread_merge_witness :
    getUnread (fetchContacts { stEmpty with unreadCounts := [(1, 1)] } 7
      [{ chatWith8 with unreadCount1 := 3 }]) 1 =
      max (getUnread { stEmpty with unreadCounts := [(1, 1)] } 1)
        (serverUnreadFor 7 { chatWith8 with unreadCount1 := 3 }) ∧
    getUnread (selectChat { stEmpty with unreadCounts := [(1, 1)] }
      (some chatWith8) 7) 1 = 0 :=
  ⟨(claim4_unread_merge { stEmpty with unreadCounts := [(1, 1)] } 7
      [{ chatWith8 with unreadCount1 := 3 }] (by decide) (by decide)).1
      { chatWith8 with unreadCount1 := 3 } (by simp),
   (claim4_unread_merge { stEmpty with unreadCounts := [(1, 1)] } 7
      [{ chatWith8 with unreadCount1 := 3 }] (by decide) (by decide)).2.2.2
      chatWith8⟩

theorem countLive_le_one (s : EngineState) (hwf : timersWF s) (i : Nat) :
    countLive s i ≤ 1 := by
  unfold countLive
  have hnd : ((s.liveTimeouts.filter (fun t => t.msgId = i)).map
      (fun t => t.handle)).Nodup :=
    ((List.filter_sublist s.liveTimeouts).map (fun t => t.handle)).nodup hwf.2.1
  cases hl : s.liveTimeouts.filter (fun t => t.msgId = i) with
  | nil => simp [hl]
  | cons t1 rest =>
    cases rest with
    | nil => simp [hl]
    | cons t2 rest2 =>
      exfalso
      have h1 : t1 ∈ s.liveTimeouts ∧ t1.msgId = i := by
        have := hl ▸ List.mem_cons_self t1 (t2 :: rest2)
        exact ⟨List.mem_of_mem_filter this, by simpa using List.of_mem_filter this⟩
      have h2 : t2 ∈ s.liveTimeouts ∧ t2.msgId = i := by
        have : t2 ∈ s.liveTimeouts.filter (fun t => t.msgId = i) := by
          rw [hl]
          exact List.mem_cons_of_mem _ (List.mem_cons_self t2 rest2)
        exact ⟨List.mem_of_mem_filter this, by simpa using List.of_mem_filter this⟩
      have he1 := hwf.1 t1 h1.1
      have he2 := hwf.1 t2 h2.1
      rw [h1.2] at he1
      rw [h2.2] at he2
      have hh : t1.handle = t2.handle := by
        rw [he1] at he2
        exact (Option.some.injEq _ _).mp he2
      rw [hl] at hnd
      simp only [List.map_cons, List.nodup_cons] at hnd
      exact hnd.1 (by rw [hh]; exact List.mem_cons_self _ _)

theorem clearTimer_no_live (s : EngineState) (i : Nat) (hwf : timersWF s) :
    ∀ t ∈ (clearTimer s i).liveTimeouts, t.msgId ≠ i := by
  intro t ht hti
  unfold clearTimer at ht
  cases hm : mapGet s.deletionTimers i with
  | none =>
    rw [hm] at ht
    have := hwf.1 t ht
    rw [hti, hm] at this
    cases this
  | some h =>
    rw [hm] at ht
    dsimp only at ht
    have hmem := List.mem_of_mem_filter ht
    have hneq : t.handle ≠ h := by simpa using List.of_mem_filter ht
    have := hwf.1 t hmem
    rw [hti, hm] at this
    exact hneq ((Option.some.injEq _ _).mp this).symm

theorem clearTimer_wf (s : EngineState) (i : Nat) (hwf : timersWF s) :
    timersWF (clearTimer s i) := by
  unfold clearTimer
  cases hm : mapGet s.deletionTimers i with
  | none =>
    refine ⟨?_, hwf.2.1, hwf.2.2⟩
    intro t ht
    have hti : t.msgId ≠ i := by
      intro hti
      have := hwf.1 t ht
      rw [hti, hm] at this
      cases this
    rw [mapGet_del_other _ _ _ hti]
    exact hwf.1 t ht
  | some h =>
    refine ⟨?_, ?_, ?_⟩
    · intro t ht
      dsimp only at ht
      have hmem := List.mem_of_mem_filter ht
      have hneq : t.handle ≠ h := by simpa using List.of_mem_filter ht
      have hti : t.msgId ≠ i := by
        intro hti
        have := hwf.1 t hmem
        rw [hti, hm] at this
        exact hneq ((Option.some.injEq _ _).mp this).symm
      rw [mapGet_del_other _ _ _ hti]
      exact hwf.1 t hmem
    · exact ((List.filter_sublist s.liveTimeouts).map (fun t => t.handle)).nodup
        hwf.2.1
    · intro t ht
      exact hwf.2.2 t (List.mem_of_mem_filter ht)

theorem schedule_wf (s : EngineState) (m : Msg) (now : Nat)
    (hwf : timersWF s) : timersWF (scheduleMessageDeletion s m now) := by
  unfold scheduleMessageDeletion
  split
  · exact hwf
  dsimp only
  have hwf1 := clearTimer_wf s m.id hwf
  have hno1 := clearTimer_no_live s m.id hwf
  unfold timersWF
  dsimp only
  refine ⟨?_, ?_, ?_⟩
  · intro t ht
    rcases List.mem_append.mp ht with hold | hnew
    · have hti := hno1 t hold
      rw [mapGet_set_other _ _ _ _ hti]
      exact hwf1.1 t hold
    · rw [List.mem_singleton] at hnew
      subst hnew
      exact mapGet_set_self _ _ _
  · rw [List.map_append, List.map_singleton]
    rw [List.nodup_append]
    refine ⟨hwf1.2.1, List.nodup_singleton _, ?_⟩
    intro a ha hb
    rw [List.mem_singleton] at hb
    rcases List.mem_map.mp ha with ⟨t, ht, hte⟩
    have hlt := hwf1.2.2 t ht
    dsimp only at hte hb
    omega
  · intro t ht
    rcases List.mem_append.mp ht with hold | hnew
    · have := hwf1.2.2 t hold
      omega
    · rw [List.mem_singleton] at hnew
      subst hnew
      dsimp only
      omega

theorem find_handle_unique (l : List TimerEntry)
    (hnd : (l.map (fun t => t.handle)).Nodup) (t : TimerEntry) (ht : t ∈ l)
    (h : Nat) (hh : t.handle = h) :
    l.find? (fun u => u.handle = h) = some t := by
  induction l with
  | nil => cases ht
  | cons u rest ih =>
    simp only [List.map_cons, List.nodup_cons] at hnd
    rcases List.mem_cons.mp ht with rfl | hmem
    · rw [List.find?_cons_of_pos _ (by simp [hh])]
    · by_cases hu : u.handle = h
      · exact absurd (by rw [hu, ← hh]; exact List.mem_map_of_mem _ hmem) hnd.1
      · rw [List.find?_cons_of_neg _ (by simp [hu])]
        exact ih hnd.2 hmem

theorem clearTimer_live_subset (s : EngineState) (i : Nat) :
    ∀ u ∈ (clearTimer s i).liveTimeouts, u ∈ s.liveTimeouts := by
  intro u hu
  unfold clearTimer at hu
  cases hm : mapGet s.deletionTimers i with
  | none => rw [hm] at hu; exact hu
  | some h =>
    rw [hm] at hu
    exact List.mem_of_mem_filter hu

theorem fireTimer_of_find_none (s : EngineState) (h : Nat)
    (hx : s.liveTimeouts.find? (fun u => u.handle = h) = none) :
    fireTimer s h = s := by
  unfold fireTimer
  rw [hx]

theorem fireTimer_wf (s : EngineState) (h : Nat) (hwf : timersWF s) :
    timersWF (fireTimer s h) := by
  unfold fireTimer
  cases hfind : s.liveTimeouts.find? (fun u => u.handle = h) with
  | none => exact hwf
  | some t =>
    dsimp only
    apply clearTimer_wf
    unfold timersWF
    dsimp only
    refine ⟨?_, ?_, ?_⟩
    · intro u hu
      exact hwf.1 u (List.mem_of_mem_filter hu)
    · exact ((List.filter_sublist s.liveTimeouts).map (fun t => t.handle)).nodup
        hwf.2.1
    · intro u hu
      exact hwf.2.2 u (List.mem_of_mem_filter hu)

theorem fireTimer_seq (s : EngineState) (h : Nat) (t : TimerEntry)
    (hfind : s.liveTimeouts.find? (fun u => u.handle = h) = some t) :
    visibleSeq (fireTimer s h) t.chatId =
      (visibleSeq s t.chatId).filter (fun x => x.id ≠ t.msgId) := by
  unfold fireTimer
  rw [hfind]
  dsimp only
  rw [visibleSeq_clearTimer]
  unfold visibleSeq
  rw [mapGet_set_self, Option.getD_some]

theorem fireTimer_timer_gone (s : EngineState) (h : Nat) (t : TimerEntry)
    (hfind : s.liveTimeouts.find? (fun u => u.handle = h) = some t) :
    mapGet (fireTimer s h).deletionTimers t.msgId = none := by
  unfold fireTimer
  rw [hfind]
  dsimp only
  unfold clearTimer
  split
  · exact mapGet_del_self _ _
  · exact mapGet_del_self _ _

theorem fireTimer_no_handle (s : EngineState) (h : Nat) :
    (fireTimer s h).liveTimeouts.find? (fun u => u.handle = h) = none ∨
    fireTimer s h = s := by
  cases hfind : s.liveTimeouts.find? (fun u => u.handle = h) with
  | none => exact Or.inr (fireTimer_of_find_none s h hfind)
  | some t =>
    left
    unfold fireTimer
    rw [hfind]
    dsimp only
    rw [List.find?_eq_none]
    intro u hu
    have hu2 := clearTimer_live_subset _ _ u hu
    dsimp only at hu2
    have hne : u.handle ≠ h := by simpa using List.of_mem_filter hu2
    simpa using hne

theorem fireTimer_idem (s : EngineState) (h : Nat) :
    fireTimer (fireTimer s h) h = fireTimer s h := by
  rcases fireTimer_no_handle s h with hnone | heq
  · exact fireTimer_of_find_none _ _ hnone
  · rw [heq]
    exact heq

theorem schedule_countLive_self (s : EngineState) (m : Msg) (now : Nat)
    (hwf : timersWF s) (hexp : m.expiresAt ≠ 0) :
    countLive (scheduleMessageDeletion s m now) m.id = 1 := by
  unfold scheduleMessageDeletion
  rw [if_neg hexp]
  unfold countLive
  dsimp only
  rw [List.filter_append]
  have h1 : (clearTimer s m.id).liveTimeouts.filter
      (fun t => t.msgId = m.id) = [] := by
    rw [List.filter_eq_nil_iff]
    intro t ht
    simpa using clearTimer_no_live s m.id hwf t ht
  rw [h1]
  simp

theorem countId_filter_length (arr : List Msg) (i : Nat) :
    (arr.filter (fun x => x.id ≠ i)).length + countId arr i = arr.length := by
  unfold countId
  induction arr with
  | nil => rfl
  | cons a rest ih =>
    by_cases ha : a.id = i
    · rw [List.filter_cons_of_neg (by simp [ha]),
        List.filter_cons_of_pos (by simp [ha])]
      simp only [List.length_cons]
      omega
    · rw [List.filter_cons_of_pos (by simp [ha]),
        List.filter_cons_of_neg (by simp [ha])]
      simp only [List.length_cons]
      omega

/-- C6: `scheduleMessageDeletion` preserves the timer well-formedness
invariant, so at any time at most one live expiry timeout exists per
message id, and a (re)schedule of an id with a parseable expiry leaves
exactly one live timeout for that id (the prior one is cancelled and
replaced).  When the timeout of a live handle fires, it removes exactly
the entries with the captured message id from the captured chat's
sequence — exactly one entry when the id occurs once — forgets the
recorded timer for that id, and the spent handle can never fire again. -/
theorem claim6_timer_uniqueness (s : EngineState) (m : Msg) (now h : Nat)
    (hwf : timersWF s) :
    timersWF (scheduleMessageDeletion s m now) ∧
    (∀ i, countLive (scheduleMessageDeletion s m now) i ≤ 1) ∧
    (m.expiresAt ≠ 0 → countLive (scheduleMessageDeletion s m now) m.id = 1) ∧
    (∀ t ∈ s.liveTimeouts, t.handle = h →
      (visibleSeq (fireTimer s h) t.chatId =
        (visibleSeq s t.chatId).filter (fun x => x.id ≠ t.msgId)) ∧
      (countId (visibleSeq s t.chatId) t.msgId = 1 →
        (visibleSeq (fireTimer s h) t.chatId).length + 1 =
          (visibleSeq s t.chatId).length) ∧
      timersWF (fireTimer s h) ∧
      mapGet (fireTimer s h).deletionTimers t.msgId = none ∧
      fireTimer (fireTimer s h) h = fireTimer s h) := by
  refine ⟨schedule_wf s m now hwf, ?_,
    schedule_countLive_self s m now hwf, ?_⟩
  · intro i
    exact countLive_le_one _ (schedule_wf s m now hwf) i
  · intro t ht hth
    have hfind : s.liveTimeouts.find? (fun u => u.handle = h) = some t :=
      find_handle_unique s.liveTimeouts hwf.2.1 t ht h hth
    refine ⟨fireTimer_seq s h t hfind, ?_, fireTimer_wf s h hwf,
      fireTimer_timer_gone s h t hfind, fireTimer_idem s h⟩
    intro hcount
    rw [fireTimer_seq s h t hfind]
    have hlen := countId_filter_length (visibleSeq s t.chatId) t.msgId
    omega

/-- Witness for C6: a fresh schedule on the empty state leaves exactly one
live timeout for the message id. -/
theorem claim6_timer_uniqueness_witness :
    countLive (scheduleMessageDeletion stEmpty
      { id := 1, chatId := 2, senderId := 3, receiverId := 4, content := "x",
        messageType := "text", createdAt := 100, expiresAt := 600 } 500) 1 = 1 :=
  (claim6_timer_uniqueness stEmpty
      { id := 1, chatId := 2, senderId := 3, receiverId := 4, content := "x",
        messageType := "text", createdAt := 100, expiresAt := 600 } 500 0
      (by simp [timersWF, stEmpty])).2.2.1 (by decide)

/-- Witness for C1 (amended) at a concrete load with no cutoff. -/
theorem claim1_amended_visibility_witness :
    msgDead ∈ visibleSeq (loadActiveMessages stEmpty 1 [msgDead] 1000) 1 :=
  (claim1_amended_visibility stEmpty 1 1000 [msgDead] msgDead).mpr
    ⟨by decide, by
      intro c hc
      simp [stEmpty, mapGet] at hc⟩
